import Mathlib

/-!
# Verification of the Shopify MCP client core

A shallow embedding of the repository's HTTP-client core: the snake/camel
case converter (`snakeToCamel`, `camelToSnake`, `transformKeys`), the query
builder (`buildQueryParams`), the request executor's status dispatch
(`requestOutcome`), the paginated-envelope construction of the list
operations (`listEnvelope`), and the Markdown formatters
(`formatObjectAsMarkdown`, `formatPaginatedAsMarkdown`).

JavaScript runtime values flowing through these functions are modelled by
the `Jsonish` tree (mappings, sequences, scalars, with both `null` and
`undefined`); JS coercions used by the source (`String(v)`, template
interpolation, truthiness, `Array.prototype.join`, `JSON.stringify`,
`parseInt`) are embedded explicitly.
-/

/-- A JavaScript value as it occurs in this codebase: JSON data plus
`undefined`. Numbers are modelled as integers (no fractional numbers are
produced or consumed by the logic under verification). Objects are ordered
association lists, mirroring JS own-property insertion order. -/
inductive Jsonish where
  | null
  | undef
  | bool (b : Bool)
  | num (n : Int)
  | str (s : String)
  | arr (items : List Jsonish)
  | obj (fields : List (String × Jsonish))
deriving Inhabited

namespace Jsonish

/-- `value === undefined || value === null` (used to skip entries). -/
def isNullish : Jsonish → Bool
  | .null => true
  | .undef => true
  | _ => false

/-- `typeof value === 'object' && value !== null`: arrays and objects. -/
def isComposite : Jsonish → Bool
  | .arr _ => true
  | .obj _ => true
  | _ => false

/-- A scalar: not a mapping and not a sequence. -/
def isScalar : Jsonish → Bool
  | .arr _ => false
  | .obj _ => false
  | _ => true

/-- Whether the value is a mapping. -/
def isObj : Jsonish → Bool
  | .obj _ => true
  | _ => false

/-- JS truthiness: `false`, `0`, `""`, `null`, `undefined` are falsy;
every array and object is truthy. -/
def truthy : Jsonish → Bool
  | .null => false
  | .undef => false
  | .bool b => b
  | .num n => !(n == 0)
  | .str s => !(s == "")
  | .arr _ => true
  | .obj _ => true

/-- JS property access `v[k]`: the first binding of `k` on an object,
`undefined` when absent or when `v` is not an object. (On `null` and
`undefined` JS throws instead; the theorems only apply this to values for
which the source performs the access.) -/
def get (v : Jsonish) (k : String) : Jsonish :=
  match v with
  | .obj fields =>
    match fields.find? (fun p => p.1 == k) with
    | some p => p.2
    | none => .undef
  | _ => .undef

end Jsonish

/-! ## JS string coercions -/

/-- Render an integer the way JS renders it in templates and `String()`. -/
def jsNumToString (n : Int) : String := toString n

mutual
/-- `String(v)` / template-literal interpolation of `v`. -/
def jsToString : Jsonish → String
  | .null => "null"
  | .undef => "undefined"
  | .bool b => if b then "true" else "false"
  | .num n => jsNumToString n
  | .str s => s
  | .arr xs => jsArrJoin xs
  | .obj _ => "[object Object]"

/-- `Array.prototype.join(',')` (also what `String(array)` does): elements
are stringified, with `null` and `undefined` elements rendered empty. -/
def jsArrJoin : List Jsonish → String
  | [] => ""
  | [x] => jsJoinElem x
  | x :: xs => jsJoinElem x ++ "," ++ jsArrJoin xs

/-- One element under `join`: `null`/`undefined` become the empty string,
everything else renders as under `String(v)` (cases inlined so the mutual
recursion stays structural). -/
def jsJoinElem : Jsonish → String
  | .null => ""
  | .undef => ""
  | .bool b => if b then "true" else "false"
  | .num n => jsNumToString n
  | .str s => s
  | .arr xs => jsArrJoin xs
  | .obj _ => "[object Object]"
end

/-! ## Case conversion (source: `snakeToCamel`, `camelToSnake`) -/

/-- The character class `[a-z]`. -/
def isAsciiLower (c : Char) : Bool := 'a' ≤ c && c ≤ 'z'

/-- The character class `[A-Z]`. -/
def isAsciiUpper (c : Char) : Bool := 'A' ≤ c && c ≤ 'Z'

/-- Lower-case an ASCII capital (identity elsewhere). -/
def lowerChar (c : Char) : Char :=
  if isAsciiUpper c then Char.ofNat (c.toNat + 32) else c

/-- Upper-case an ASCII lower-case letter (identity elsewhere). -/
def upperChar (c : Char) : Char :=
  if isAsciiLower c then Char.ofNat (c.toNat - 32) else c

/-- `str.replace(/_([a-z])/g, (_, letter) => letter.toUpperCase())`:
left-to-right, non-overlapping; an underscore followed by a lower-case
letter becomes that letter upper-cased. -/
def snakeToCamelList : List Char → List Char
  | [] => []
  | '_' :: c :: cs =>
    if isAsciiLower c then upperChar c :: snakeToCamelList cs
    else '_' :: snakeToCamelList (c :: cs)
  | c :: cs => c :: snakeToCamelList cs

/-- `str.replace(/[A-Z]/g, (letter) => '_' + letter.toLowerCase())`. -/
def camelToSnakeList : List Char → List Char
  | [] => []
  | c :: cs =>
    if isAsciiUpper c then '_' :: lowerChar c :: camelToSnakeList cs
    else c :: camelToSnakeList cs

/-- Source `snakeToCamel` lifted to strings. -/
def snakeToCamel (s : String) : String := ⟨snakeToCamelList s.data⟩

/-- Source `camelToSnake` lifted to strings. -/
def camelToSnake (s : String) : String := ⟨camelToSnakeList s.data⟩

/-- Every camelCase field name declared by the entity interfaces
(`PaginationParams`, `Shop`, `Product`, …, `Asset`): the fixed schema
vocabulary of the resource schemas. -/
def schemaVocab : List String := [
    "acceptsMarketing",
    "acceptsMarketingUpdatedAt",
    "active",
    "address",
    "address1",
    "address2",
    "addresses",
    "adminGraphqlApiId",
    "allocationLimit",
    "allocationMethod",
    "alt",
    "amount",
    "amountSet",
    "apiVersion",
    "appliedDiscount",
    "assignedLocationId",
    "attachment",
    "attributionAppId",
    "authorization",
    "available",
    "availableAdjustment",
    "avsResultCode",
    "barcode",
    "billingAddress",
    "bodyHtml",
    "cancelReason",
    "cancelledAt",
    "checksum",
    "city",
    "closedAt",
    "code",
    "collectionId",
    "column",
    "company",
    "compareAtPrice",
    "completedAt",
    "condition",
    "confirmed",
    "contentType",
    "cost",
    "count",
    "country",
    "countryCode",
    "countryCodeOfOrigin",
    "countryHarmonizedSystemCodes",
    "countryName",
    "createdAt",
    "createdAtMax",
    "createdAtMin",
    "creditCardBin",
    "creditCardCompany",
    "creditCardNumber",
    "currency",
    "currencyCode",
    "custom",
    "customer",
    "customerId",
    "customerSelection",
    "cvvResultCode",
    "default",
    "defaultAddress",
    "deliveryMethod",
    "description",
    "destination",
    "discountApplications",
    "discountCodes",
    "discountedPrice",
    "disjunctive",
    "domain",
    "email",
    "endsAt",
    "endsAtMax",
    "endsAtMin",
    "entitledCollectionIds",
    "entitledCountryIds",
    "entitledProductIds",
    "entitledVariantIds",
    "errorCode",
    "fields",
    "financialStatus",
    "firstName",
    "format",
    "fulfillAt",
    "fulfillBy",
    "fulfillableQuantity",
    "fulfillmentHolds",
    "fulfillmentOrderId",
    "fulfillmentService",
    "fulfillmentStatus",
    "fulfillments",
    "gateway",
    "giftCard",
    "grams",
    "greaterThanOrEqualTo",
    "handle",
    "harmonizedSystemCode",
    "hasMore",
    "height",
    "ianaTimezone",
    "id",
    "ids",
    "image",
    "imageId",
    "images",
    "internationalDuties",
    "inventoryBehaviour",
    "inventoryItemId",
    "inventoryItemIds",
    "inventoryManagement",
    "inventoryPolicy",
    "inventoryQuantity",
    "invoiceSentAt",
    "invoiceUrl",
    "items",
    "key",
    "kind",
    "lastName",
    "legacy",
    "limit",
    "lineItem",
    "lineItemId",
    "lineItems",
    "lineItemsByFulfillmentOrder",
    "localizedCountryName",
    "localizedProvinceName",
    "locationId",
    "locationIds",
    "marketingOptInLevel",
    "message",
    "metafieldNamespaces",
    "methodType",
    "moneyFormat",
    "myshopifyDomain",
    "name",
    "namespace",
    "nextCursor",
    "nextPageInfo",
    "note",
    "noteAttributes",
    "notify",
    "notifyCustomer",
    "oldInventoryQuantity",
    "oncePerCustomer",
    "option1",
    "option2",
    "option3",
    "options",
    "order",
    "orderAdjustments",
    "orderId",
    "orderNumber",
    "ordersCount",
    "originAddress",
    "ownerId",
    "ownerResource",
    "parentId",
    "paymentDetails",
    "phone",
    "planDisplayName",
    "planName",
    "position",
    "prerequisiteCollectionIds",
    "prerequisiteCustomerIds",
    "prerequisiteProductIds",
    "prerequisiteQuantityRange",
    "prerequisiteSavedSearchIds",
    "prerequisiteShippingPriceRange",
    "prerequisiteSubtotalRange",
    "prerequisiteToEntitlementPurchase",
    "prerequisiteToEntitlementQuantityRatio",
    "prerequisiteVariantIds",
    "presentmentMoney",
    "previewable",
    "price",
    "priceRuleId",
    "privateMetafieldNamespaces",
    "processedAt",
    "processedAtMax",
    "processedAtMin",
    "processing",
    "productId",
    "productType",
    "properties",
    "province",
    "provinceCode",
    "provinceCodeOfOrigin",
    "publicUrl",
    "published",
    "publishedAt",
    "publishedAtMax",
    "publishedAtMin",
    "publishedScope",
    "publishedStatus",
    "quantity",
    "query",
    "rate",
    "reason",
    "reasonNotes",
    "receipt",
    "refundId",
    "refundLineItems",
    "refunds",
    "relation",
    "requestStatus",
    "requiresShipping",
    "restock",
    "restockType",
    "role",
    "rules",
    "sendEmailInvite",
    "sendEmailWelcome",
    "sendFulfillmentReceipt",
    "sendReceipt",
    "service",
    "shipmentStatus",
    "shipping",
    "shippingAddress",
    "shippingLine",
    "shippingLines",
    "shopId",
    "shopMoney",
    "shopOwner",
    "sinceId",
    "size",
    "sku",
    "sortOrder",
    "sortValue",
    "source",
    "sourceKey",
    "sourceName",
    "src",
    "startsAt",
    "startsAtMax",
    "startsAtMin",
    "state",
    "status",
    "subtotal",
    "subtotalPrice",
    "subtotalSet",
    "supportedActions",
    "tags",
    "targetSelection",
    "targetType",
    "taxAmount",
    "taxAmountSet",
    "taxCode",
    "taxExempt",
    "taxExemptions",
    "taxLines",
    "taxable",
    "taxesIncluded",
    "templateSuffix",
    "test",
    "themeId",
    "themeStoreId",
    "timesUsed",
    "timezone",
    "title",
    "token",
    "topic",
    "total",
    "totalDiscount",
    "totalDiscounts",
    "totalPrice",
    "totalSpent",
    "totalTax",
    "totalTaxSet",
    "totalWeight",
    "tracked",
    "trackingCompany",
    "trackingInfo",
    "trackingNumber",
    "trackingNumbers",
    "trackingUrl",
    "trackingUrls",
    "transactions",
    "type",
    "updatedAt",
    "updatedAtMax",
    "updatedAtMin",
    "usageCount",
    "usageLimit",
    "useCustomerDefaultAddress",
    "userId",
    "value",
    "valueType",
    "values",
    "variantId",
    "variantIds",
    "variantTitle",
    "variants",
    "vendor",
    "verifiedEmail",
    "weight",
    "weightUnit",
    "width",
    "zip"]

/-! ## Key transformation over nested structures (source: `transformKeys`) -/

/-- JS property assignment `result[k] = v` on a plain object: if `k` is
already present its value is updated in place, else the binding is appended
(insertion order). -/
def objSet (fs : List (String × Jsonish)) (k : String) (v : Jsonish) :
    List (String × Jsonish) :=
  if fs.any (fun p => p.1 == k) then
    fs.map (fun p => if p.1 == k then (p.1, v) else p)
  else fs ++ [(k, v)]

mutual
/-- Source `transformKeys`: `null`/`undefined` and scalars are returned
as-is, arrays are mapped element-wise, and objects are rebuilt by
assigning `result[transformer(key)] = transformKeys(value, transformer)`
for each entry in order. -/
def transformKeys (f : String → String) : Jsonish → Jsonish
  | .null => .null
  | .undef => .undef
  | .bool b => .bool b
  | .num n => .num n
  | .str s => .str s
  | .arr xs => .arr (transformKeysArr f xs)
  | .obj fs => .obj (transformKeysObj f fs [])

/-- `obj.map((item) => transformKeys(item, transformer))`. -/
def transformKeysArr (f : String → String) : List Jsonish → List Jsonish
  | [] => []
  | x :: xs => transformKeys f x :: transformKeysArr f xs

/-- The `for (const [key, value] of Object.entries(obj))` loop, building up
the result object by repeated assignment. -/
def transformKeysObj (f : String → String) :
    List (String × Jsonish) → List (String × Jsonish) → List (String × Jsonish)
  | [], acc => acc
  | (k, v) :: fs, acc => transformKeysObj f fs (objSet acc (f k) (transformKeys f v))
end

/-- Source `toCamelCase`: wire → internal over a whole payload. -/
def toCamelCase (obj : Jsonish) : Jsonish := transformKeys snakeToCamel obj

/-- Source `toSnakeCase`: internal → wire over a whole payload. -/
def toSnakeCase (obj : Jsonish) : Jsonish := transformKeys camelToSnake obj

/-! ### Observations used to state the `transformKeys` contract -/

mutual
/-- Erase every mapping key (to `""`), keeping structure and scalar values:
two values have equal `eraseKeys` exactly when they are structurally
identical copies with the same scalars in the same positions. -/
def eraseKeys : Jsonish → Jsonish
  | .arr xs => .arr (eraseKeysArr xs)
  | .obj fs => .obj (eraseKeysObj fs)
  | v => v

def eraseKeysArr : List Jsonish → List Jsonish
  | [] => []
  | x :: xs => eraseKeys x :: eraseKeysArr xs

def eraseKeysObj : List (String × Jsonish) → List (String × Jsonish)
  | [] => []
  | (_, v) :: fs => ("", eraseKeys v) :: eraseKeysObj fs
end

mutual
/-- All mapping keys of a value, in preorder traversal order. -/
def keyList : Jsonish → List String
  | .arr xs => keyListArr xs
  | .obj fs => keyListObj fs
  | _ => []

def keyListArr : List Jsonish → List String
  | [] => []
  | x :: xs => keyList x ++ keyListArr xs

def keyListObj : List (String × Jsonish) → List String
  | [] => []
  | (k, v) :: fs => k :: (keyList v ++ keyListObj fs)
end

/-- Pairwise distinctness of a key list (Boolean `Nodup`). -/
def distinctKeys : List String → Bool
  | [] => true
  | k :: ks => !(ks.contains k) && distinctKeys ks

mutual
/-- The transform `f` produces no key collisions anywhere inside the value:
on every mapping, the transformed keys are pairwise distinct. -/
def keysInjOn (f : String → String) : Jsonish → Bool
  | .arr xs => keysInjOnArr f xs
  | .obj fs => distinctKeys (fs.map (fun kv => f kv.1)) && keysInjOnObj f fs
  | _ => true

def keysInjOnArr (f : String → String) : List Jsonish → Bool
  | [] => true
  | x :: xs => keysInjOn f x && keysInjOnArr f xs

def keysInjOnObj (f : String → String) : List (String × Jsonish) → Bool
  | [] => true
  | (_, v) :: fs => keysInjOn f v && keysInjOnObj f fs
end

/-! ## JSON serialization (`JSON.stringify`) -/

/-- Escape one character for a JSON string literal (the escapes JS emits). -/
def jsonEscapeChar (c : Char) : List Char :=
  if c = '"' then ['\\', '"']
  else if c = '\\' then ['\\', '\\']
  else if c = '\n' then ['\\', 'n']
  else if c = '\t' then ['\\', 't']
  else if c = '\r' then ['\\', 'r']
  else [c]

/-- A JSON string literal: `"…"` with escapes. -/
def jsonQuote (s : String) : String :=
  ⟨'"' :: (s.data.flatMap jsonEscapeChar ++ ['"'])⟩

/-- Join strings with a separator (`Array.prototype.join`). -/
def joinSep (sep : String) : List String → String
  | [] => ""
  | [x] => x
  | x :: xs => x ++ sep ++ joinSep sep xs

/-- `lines.join('\n')`, as the formatters do. -/
def joinLines : List String → String
  | [] => ""
  | [l] => l
  | l :: ls => l ++ "\n" ++ joinLines ls

mutual
/-- Compact `JSON.stringify(v)`: `undefined` array elements render as
`null`, `undefined`-valued object fields are omitted (as JS does). -/
def jsonStringify : Jsonish → String
  | .null => "null"
  | .undef => "null"
  | .bool b => if b then "true" else "false"
  | .num n => toString n
  | .str s => jsonQuote s
  | .arr xs => "[" ++ joinSep "," (jsonStringifyArr xs) ++ "]"
  | .obj fs => "\x7b" ++ joinSep "," (jsonStringifyObj fs) ++ "\x7d"

def jsonStringifyArr : List Jsonish → List String
  | [] => []
  | x :: xs => jsonStringify x :: jsonStringifyArr xs

def jsonStringifyObj : List (String × Jsonish) → List String
  | [] => []
  | (k, v) :: fs =>
    match v with
    | .undef => jsonStringifyObj fs
    | v => (jsonQuote k ++ ":" ++ jsonStringify v) :: jsonStringifyObj fs
end

/-- `n` spaces. -/
def spacesN (n : Nat) : String := ⟨List.replicate n ' '⟩

mutual
/-- Pretty `JSON.stringify(v, null, 2)` at nesting depth `ind`. -/
def prettyJson : Nat → Jsonish → String
  | _, .null => "null"
  | _, .undef => "null"
  | _, .bool b => if b then "true" else "false"
  | _, .num n => toString n
  | _, .str s => jsonQuote s
  | ind, .arr xs =>
    match xs with
    | [] => "[]"
    | _ =>
      "[\n" ++ joinSep ",\n" (prettyJsonArr (ind + 1) xs) ++ "\n" ++ spacesN (2 * ind) ++ "]"
  | ind, .obj fs =>
    match jsonPrettyObjEntries (ind + 1) fs with
    | [] => "\x7b\x7d"
    | es => "\x7b\n" ++ joinSep ",\n" es ++ "\n" ++ spacesN (2 * ind) ++ "\x7d"

def prettyJsonArr (ind : Nat) : List Jsonish → List String
  | [] => []
  | x :: xs => (spacesN (2 * ind) ++ prettyJson ind x) :: prettyJsonArr ind xs

def jsonPrettyObjEntries (ind : Nat) : List (String × Jsonish) → List String
  | [] => []
  | (k, v) :: fs =>
    match v with
    | .undef => jsonPrettyObjEntries ind fs
    | v =>
      (spacesN (2 * ind) ++ jsonQuote k ++ ": " ++ prettyJson ind v) ::
        jsonPrettyObjEntries ind fs
end

/-- Top-level `JSON.stringify(v, null, 2)`. -/
def jsonPretty (v : Jsonish) : String := prettyJson 0 v

/-! ## `parseInt(s, 10)` -/

/-- ASCII decimal digit. -/
def isAsciiDigit (c : Char) : Bool := '0' ≤ c && c ≤ '9'

/-- The whitespace `parseInt` skips (the common ASCII subset). -/
def jsWhitespace (c : Char) : Bool :=
  c == ' ' || c == '\t' || c == '\n' || c == '\r'

/-- Value of a digit string. -/
def digitsVal (ds : List Char) : Nat :=
  ds.foldl (fun a c => a * 10 + (c.toNat - '0'.toNat)) 0

/-- The longest leading run of digits, as a number; `none` when empty. -/
def parseLeadingDigits (cs : List Char) : Option Nat :=
  match cs.takeWhile isAsciiDigit with
  | [] => none
  | ds => some (digitsVal ds)

/-- `parseInt(s, 10)`: skip leading whitespace, optional sign, then the
longest leading digit run; `none` models `NaN`. -/
def parseIntJs (s : String) : Option Int :=
  match s.data.dropWhile jsWhitespace with
  | '-' :: rest => (parseLeadingDigits rest).map (fun n => -(n : Int))
  | '+' :: rest => (parseLeadingDigits rest).map (fun n => (n : Int))
  | rest => (parseLeadingDigits rest).map (fun n => (n : Int))

/-! ## Request executor status dispatch (source: `ShopifyClientImpl.request`) -/

/-- The outcome of one `request` call: a thrown typed error or a returned
payload. `success none` is the `undefined` returned on 204 No Content;
`jsonParseFailure` models `response.json()` throwing on a 2xx non-JSON
body. For `rateLimited`, `retryAfter = none` models `NaN` from a
non-numeric `Retry-After` header. -/
inductive RequestOutcome where
  | rateLimited (message : String) (retryAfter : Option Int)
  | authError (message : String)
  | apiError (message : String) (status : Nat)
  | success (payload : Option Jsonish)
  | jsonParseFailure

/-- `retryAfter ? parseInt(retryAfter, 10) : 60`: the header string is
falsy when `null` (absent) or empty. -/
def retryAfterHint (header : Option String) : Option Int :=
  match header with
  | none => some 60
  | some s => if s == "" then some 60 else parseIntJs s

/-- The non-2xx error-message extraction: start from the generic message,
and when the body parses as JSON and its `errors` field is truthy, use it
directly if a string, else its `JSON.stringify`. `parsedBody = none`
models a body on which `JSON.parse` throws (the `catch` keeps the generic
message; a thrown property access on a primitive parse result lands in the
same `catch`, which `Jsonish.get` reproduces by yielding `undefined`). -/
def extractErrorMessage (status : Nat) (parsedBody : Option Jsonish) : String :=
  let dflt := "Shopify API error: " ++ toString status
  match parsedBody with
  | none => dflt
  | some body =>
    let e := body.get "errors"
    if e.truthy then
      match e with
      | .str s => s
      | e => jsonStringify e
    else dflt

/-- The status dispatch of `request`, checked in source order: 429, 401,
403, 404, any other non-2xx (`!response.ok`), 204, then a JSON 2xx body
converted to internal casing. -/
def requestOutcome (status : Nat) (retryAfterHeader : Option String)
    (parsedBody : Option Jsonish) : RequestOutcome :=
  if status == 429 then
    .rateLimited "Rate limit exceeded" (retryAfterHint retryAfterHeader)
  else if status == 401 then .authError "Invalid access token"
  else if status == 403 then .authError "Access denied. Check your access scopes."
  else if status == 404 then .apiError "Resource not found" 404
  else if !(200 ≤ status && status ≤ 299) then
    .apiError (extractErrorMessage status parsedBody) status
  else if status == 204 then .success none
  else
    match parsedBody with
    | some body => .success (some (toCamelCase body))
    | none => .jsonParseFailure

/-! ## Query builder (source: `ShopifyClientImpl.buildQueryParams`) -/

/-- `URLSearchParams.set(k, v)`: replace the first binding of `k` and drop
any later ones, else append. -/
def urlParamsSet : List (String × String) → String → String → List (String × String)
  | [], k, v => [(k, v)]
  | p :: ps, k, v =>
    if p.1 == k then (k, v) :: ps.filter (fun q => !(q.1 == k))
    else p :: urlParamsSet ps k v

/-- One query value: arrays are joined with commas, everything else is
`String(value)`. -/
def queryValueString : Jsonish → String
  | .arr xs => jsArrJoin xs
  | v => jsToString v

/-- `buildQueryParams` up to URL encoding: snake-case the whole params
object, then `set` each non-nullish entry on a fresh `URLSearchParams`.
`transformKeysObj camelToSnake params []` is exactly
`Object.entries(toSnakeCase(params))`. The result is the parameter list;
the source's final `toString()` percent-encodes it. -/
def buildQueryParams (params : List (String × Jsonish)) : List (String × String) :=
  (transformKeysObj camelToSnake params []).foldl
    (fun qp kv =>
      if kv.2.isNullish then qp
      else urlParamsSet qp kv.1 (queryValueString kv.2))
    []

/-! ## Create/update request bodies (source: `createProduct`,
`createCustomCollection`, `createDraftOrder`) -/

/-- `{ product: toSnakeCase(input) }`. -/
def createProductBody (input : Jsonish) : Jsonish :=
  .obj [("product", toSnakeCase input)]

/-- `{ customCollection: toSnakeCase(input) }` — note the wrapper key is
written in internal casing in the source. -/
def createCustomCollectionBody (input : Jsonish) : Jsonish :=
  .obj [("customCollection", toSnakeCase input)]

/-- `{ draftOrder: toSnakeCase(input) }` — note the wrapper key is written
in internal casing in the source. -/
def createDraftOrderBody (input : Jsonish) : Jsonish :=
  .obj [("draftOrder", toSnakeCase input)]

/-! ## Paginated envelope (source: every list operation) -/

/-- The `PaginatedResponse` envelope fields used by the client and the
formatter (`nextPageInfo` is never set nor read and is omitted). -/
structure PaginatedResponse where
  items : List Jsonish
  count : Nat
  hasMore : Bool
  total : Option Int
  nextCursor : Option String

/-- `params?.limit || 50`: absent and `0` (falsy) both fall back to 50. -/
def effectiveLimit : Option Nat → Nat
  | none => 50
  | some l => if l == 0 then 50 else l

/-- The envelope every list operation returns:
`{ items, count: items.length, hasMore: items.length === (params?.limit || 50) }`
— `total` and `nextCursor` are never set. -/
def listEnvelope (fetched : List Jsonish) (limit : Option Nat) : PaginatedResponse :=
  { items := fetched
    count := fetched.length
    hasMore := fetched.length == effectiveLimit limit
    total := none
    nextCursor := none }

/-! ## Markdown formatters (source: `src/utils/formatters.ts`) -/

/-- `a || b` on JS values. -/
def truthyOr (v w : Jsonish) : Jsonish := if v.truthy then v else w

/-- `a ?? b` on JS values. -/
def nullishOr (v w : Jsonish) : Jsonish := if v.isNullish then w else v

/-- `${x || '-'}`. -/
def orDash (v : Jsonish) : String :=
  if v.truthy then jsToString v else "-"

/-- `String.prototype.trim()` (ASCII whitespace). -/
def jsTrim (s : String) : String :=
  ⟨((s.data.dropWhile jsWhitespace).reverse.dropWhile jsWhitespace).reverse⟩

/-- Source `capitalize`: `str.charAt(0).toUpperCase() + str.slice(1)`. -/
def capitalize (s : String) : String :=
  match s.data with
  | [] => ""
  | c :: cs => ⟨upperChar c :: cs⟩

/-- `entityType.replace(/s$/, '')`: drop one trailing `s`. -/
def stripTrailingS (s : String) : String :=
  if s.data.getLast? == some 's' then ⟨s.data.dropLast⟩ else s

/-- `key.replace(/([A-Z])/g, ' $1')`: a space before each capital. -/
def spaceBeforeCaps : List Char → List Char
  | [] => []
  | c :: cs =>
    if isAsciiUpper c then ' ' :: c :: spaceBeforeCaps cs
    else c :: spaceBeforeCaps cs

/-- Source `formatKey`: space out capitals, upper-case the first character
(`replace(/^./, …)`), then trim. -/
def formatKey (key : String) : String :=
  jsTrim ⟨match spaceBeforeCaps key.data with
          | [] => []
          | c :: cs => upperChar c :: cs⟩

/-- The lines one non-nullish field contributes in single-entity Markdown:
a pretty-printed JSON block for object/array values, one `**Key:** value`
line otherwise. -/
def entryLinesMd (k : String) (v : Jsonish) : List String :=
  if v.isComposite then
    ["**" ++ formatKey k ++ ":**", "```json", jsonPretty v, "```"]
  else
    ["**" ++ formatKey k ++ ":** " ++ jsToString v]

/-- The field loop of `formatObjectAsMarkdown`: `continue` on
`null`/`undefined` values, else push the field's lines. -/
def formatObjectLines : List (String × Jsonish) → List String
  | [] => []
  | (k, v) :: fs =>
    if v.isNullish then formatObjectLines fs
    else entryLinesMd k v ++ formatObjectLines fs

/-- Source `formatObjectAsMarkdown`: heading (entity type with a trailing
`s` dropped, capitalized), a blank line, then the field lines. -/
def formatObjectAsMarkdown (data : List (String × Jsonish)) (entityType : String) : String :=
  joinLines (["## " ++ capitalize (stripTrailingS entityType), ""] ++ formatObjectLines data)

/-- Spec-side rendering of a single entity, written from the spec's words:
every field whose value is `null`/`undefined` is skipped; every field
holding a mapping or sequence is rendered as an embedded pretty-printed
JSON code block; every other field is one `**Key:** value` line. -/
def formatSingleEntitySpec (data : List (String × Jsonish)) (entityType : String) : String :=
  joinLines (["## " ++ capitalize (stripTrailingS entityType), ""] ++
    (data.filter (fun kv => !kv.2.isNullish)).flatMap (fun kv => entryLinesMd kv.1 kv.2))

/-- One `formatProductsTable` row. -/
def productRow (p : Jsonish) : String :=
  let variantCount : Nat :=
    match p.get "variants" with
    | .arr xs => xs.length
    | _ => 0
  "| " ++ jsToString (p.get "id") ++ " | " ++ jsToString (p.get "title") ++ " | " ++
    orDash (p.get "vendor") ++ " | " ++ orDash (p.get "status") ++ " | " ++
    toString variantCount ++ " |"

/-- Source `formatProductsTable`. -/
def formatProductsTable (products : List Jsonish) : String :=
  joinLines (["| ID | Title | Vendor | Status | Variants |", "|---|---|---|---|---|"] ++
    products.map productRow)

/-- `` `${c.firstName || ''} ${c.lastName || ''}`.trim() || c.email ``,
rendered. -/
def personName (c : Jsonish) : String :=
  let nm := jsTrim (jsToString (truthyOr (c.get "firstName") (.str "")) ++ " " ++
    jsToString (truthyOr (c.get "lastName") (.str "")))
  if nm == "" then jsToString (c.get "email") else nm

/-- One `formatOrdersTable` row. -/
def orderRow (o : Jsonish) : String :=
  let customerName := if (o.get "customer").truthy then personName (o.get "customer") else "-"
  let total := jsToString (truthyOr (o.get "currency") (.str "$")) ++ " " ++
    jsToString (truthyOr (o.get "totalPrice") (.str "0"))
  "| " ++ jsToString (o.get "id") ++ " | " ++
    jsToString (truthyOr (o.get "orderNumber") (o.get "name")) ++ " | " ++
    customerName ++ " | " ++ total ++ " | " ++ orDash (o.get "financialStatus") ++ " | " ++
    orDash (o.get "createdAt") ++ " |"

/-- Source `formatOrdersTable`. -/
def formatOrdersTable (orders : List Jsonish) : String :=
  joinLines (["| ID | Order # | Customer | Total | Status | Created |",
    "|---|---|---|---|---|---|"] ++ orders.map orderRow)

/-- One `formatCustomersTable` row. -/
def customerRow (c : Jsonish) : String :=
  let nm := jsTrim (jsToString (truthyOr (c.get "firstName") (.str "")) ++ " " ++
    jsToString (truthyOr (c.get "lastName") (.str "")))
  let name := if nm == "" then "-" else nm
  "| " ++ jsToString (c.get "id") ++ " | " ++ name ++ " | " ++ orDash (c.get "email") ++
    " | " ++ jsToString (truthyOr (c.get "ordersCount") (.num 0)) ++ " | " ++
    jsToString (truthyOr (c.get "totalSpent") (.str "0")) ++ " |"

/-- Source `formatCustomersTable`. -/
def formatCustomersTable (customers : List Jsonish) : String :=
  joinLines (["| ID | Name | Email | Orders | Total Spent |", "|---|---|---|---|---|"] ++
    customers.map customerRow)

/-- One `formatDraftOrdersTable` row. -/
def draftOrderRow (d : Jsonish) : String :=
  let customerName := if (d.get "customer").truthy then personName (d.get "customer") else "-"
  "| " ++ jsToString (d.get "id") ++ " | " ++ jsToString (d.get "name") ++ " | " ++
    customerName ++ " | " ++ jsToString (truthyOr (d.get "totalPrice") (.str "0")) ++
    " | " ++ orDash (d.get "status") ++ " | " ++ orDash (d.get "createdAt") ++ " |"

/-- Source `formatDraftOrdersTable`. -/
def formatDraftOrdersTable (draftOrders : List Jsonish) : String :=
  joinLines (["| ID | Name | Customer | Total | Status | Created |",
    "|---|---|---|---|---|---|"] ++ draftOrders.map draftOrderRow)

/-- One `formatFulfillmentsTable` row. -/
def fulfillmentRow (f : Jsonish) : String :=
  "| " ++ jsToString (f.get "id") ++ " | " ++ orDash (f.get "orderId") ++ " | " ++
    orDash (f.get "status") ++ " | " ++ orDash (f.get "trackingNumber") ++ " | " ++
    orDash (f.get "createdAt") ++ " |"

/-- Source `formatFulfillmentsTable`. -/
def formatFulfillmentsTable (fulfillments : List Jsonish) : String :=
  joinLines (["| ID | Order ID | Status | Tracking # | Created |", "|---|---|---|---|---|"] ++
    fulfillments.map fulfillmentRow)

/-- One `formatLocationsTable` row. -/
def locationRow (l : Jsonish) : String :=
  "| " ++ jsToString (l.get "id") ++ " | " ++ jsToString (l.get "name") ++ " | " ++
    orDash (l.get "city") ++ " | " ++ orDash (l.get "countryCode") ++ " | " ++
    (if (l.get "active").truthy then "Yes" else "No") ++ " |"

/-- Source `formatLocationsTable`. -/
def formatLocationsTable (locations : List Jsonish) : String :=
  joinLines (["| ID | Name | City | Country | Active |", "|---|---|---|---|---|"] ++
    locations.map locationRow)

/-- One `formatWebhooksTable` row. -/
def webhookRow (w : Jsonish) : String :=
  "| " ++ jsToString (w.get "id") ++ " | " ++ jsToString (w.get "topic") ++ " | " ++
    jsToString (w.get "address") ++ " | " ++ orDash (w.get "format") ++ " |"

/-- Source `formatWebhooksTable`. -/
def formatWebhooksTable (webhooks : List Jsonish) : String :=
  joinLines (["| ID | Topic | Address | Format |", "|---|---|---|---|"] ++
    webhooks.map webhookRow)

/-- One `formatPriceRulesTable` row (`value` gets a `%` suffix exactly when
`valueType === 'percentage'`). -/
def priceRuleRow (r : Jsonish) : String :=
  let isPct : Bool :=
    match r.get "valueType" with
    | .str s => s == "percentage"
    | _ => false
  let value := if isPct then jsToString (r.get "value") ++ "%" else jsToString (r.get "value")
  "| " ++ jsToString (r.get "id") ++ " | " ++ jsToString (r.get "title") ++ " | " ++
    orDash (r.get "targetType") ++ " | " ++ value ++ " | " ++ orDash (r.get "startsAt") ++
    " | " ++ orDash (r.get "endsAt") ++ " |"

/-- Source `formatPriceRulesTable`. -/
def formatPriceRulesTable (priceRules : List Jsonish) : String :=
  joinLines (["| ID | Title | Target Type | Value | Starts | Ends |",
    "|---|---|---|---|---|---|"] ++ priceRules.map priceRuleRow)

/-- `Object.keys` as used by `formatGenericTable` on the first item
(strings and arrays expose their indices; primitives have none). -/
def jsObjectKeys : Jsonish → List String
  | .obj fs => fs.map (fun kv => kv.1)
  | .str s => (List.range s.length).map toString
  | .arr xs => (List.range xs.length).map toString
  | _ => []

/-- Source `formatGenericTable`: `'_No items_'` when empty, else a table
over the first item's keys (capped at 5 columns), cells via
`String(record[k] ?? '-')`. -/
def formatGenericTable (items : List Jsonish) : String :=
  match items with
  | [] => "_No items_"
  | first :: _ =>
    let keys := (jsObjectKeys first).take 5
    joinLines (["| " ++ joinSep " | " keys ++ " |",
      "|" ++ joinSep "|" (keys.map (fun _ => "---")) ++ "|"] ++
      items.map (fun item =>
        "| " ++ joinSep " | " (keys.map (fun k => jsToString (nullishOr (item.get k) (.str "-")))) ++ " |"))

/-- `${data.nextCursor}` in the cursor template: an absent cursor
interpolates as the literal text `undefined`. -/
def optCursorString : Option String → String
  | none => "undefined"
  | some s => s

/-- The header lines `formatPaginatedAsMarkdown` pushes before the items:
heading, blank, total/showing, the cursor line whenever `hasMore` (no
guard on `nextCursor`), blank. -/
def paginatedHeaderLines (data : PaginatedResponse) (entityType : String) : List String :=
  ["## " ++ capitalize entityType, ""] ++
  (match data.total with
   | some t => ["**Total:** " ++ toString t ++ " | **Showing:** " ++ toString data.count]
   | none => ["**Showing:** " ++ toString data.count]) ++
  (if data.hasMore then
    ["**More available:** Yes (cursor: `" ++ optCursorString data.nextCursor ++ "`)"]
   else []) ++
  [""]

/-- The `switch (entityType)` over per-type table renderers, with the
generic table as default. -/
def paginatedItemsBlock (items : List Jsonish) (entityType : String) : String :=
  match entityType with
  | "products" => formatProductsTable items
  | "orders" => formatOrdersTable items
  | "customers" => formatCustomersTable items
  | "draftOrders" => formatDraftOrdersTable items
  | "fulfillments" => formatFulfillmentsTable items
  | "locations" => formatLocationsTable items
  | "webhooks" => formatWebhooksTable items
  | "priceRules" => formatPriceRulesTable items
  | _ => formatGenericTable items

/-- Source `formatPaginatedAsMarkdown`: header lines, then either the
explicit no-items marker (early return) or the per-type table. -/
def formatPaginatedAsMarkdown (data : PaginatedResponse) (entityType : String) : String :=
  if data.items.length == 0 then
    joinLines (paginatedHeaderLines data entityType ++ ["_No items found._"])
  else
    joinLines (paginatedHeaderLines data entityType ++ [paginatedItemsBlock data.items entityType])

/-- `s` contains `pat` as contiguous text. -/
def containsText (s pat : String) : Prop := ∃ l r, s = l ++ pat ++ r

/-- Structural induction for `Jsonish` with member hypotheses for the
nested lists. -/
theorem Jsonish.recAll {P : Jsonish → Prop}
    (hnull : P .null) (hundef : P .undef)
    (hbool : ∀ b, P (.bool b)) (hnum : ∀ n, P (.num n)) (hstr : ∀ s, P (.str s))
    (harr : ∀ xs, (∀ x ∈ xs, P x) → P (.arr xs))
    (hobj : ∀ fs, (∀ kv ∈ fs, P kv.2) → P (.obj fs)) :
    ∀ j, P j
  | .null => hnull
  | .undef => hundef
  | .bool b => hbool b
  | .num n => hnum n
  | .str s => hstr s
  | .arr xs => harr xs (fun x hx =>
      Jsonish.recAll hnull hundef hbool hnum hstr harr hobj x)
  | .obj fs => hobj fs (fun kv hkv =>
      Jsonish.recAll hnull hundef hbool hnum hstr harr hobj kv.2)
termination_by j => sizeOf j
decreasing_by
  · have := List.sizeOf_lt_of_mem hx
    simp only [Jsonish.arr.sizeOf_spec]
    omega
  · have h1 := List.sizeOf_lt_of_mem hkv
    obtain ⟨k, v⟩ := kv
    simp only [Jsonish.obj.sizeOf_spec, Prod.mk.sizeOf_spec] at *
    omega

set_option maxRecDepth 8000 in
theorem schemaVocab_roundTrip_aux :
    schemaVocab.all (fun k => snakeToCamel (camelToSnake k) == k) = true := by
  decide

/-- C1: for every key in the fixed schema vocabulary (the camelCase field
names declared by the entity interfaces), converting to wire casing and
back is the identity: `snakeToCamel (camelToSnake key) = key`. -/
theorem schemaVocab_roundTrip :
    schemaVocab.all (fun k => snakeToCamel (camelToSnake k) == k) = true :=
  schemaVocab_roundTrip_aux

theorem schemaVocab_roundTrip_mem {k : String} (hk : k ∈ schemaVocab) :
    snakeToCamel (camelToSnake k) = k := by
  have h := List.all_eq_true.mp schemaVocab_roundTrip_aux k hk
  exact eq_of_beq h

theorem camelToSnake_inj_on_vocab {a b : String} (ha : a ∈ schemaVocab)
    (hb : b ∈ schemaVocab) (h : camelToSnake a = camelToSnake b) : a = b := by
  have h' := congrArg snakeToCamel h
  rwa [schemaVocab_roundTrip_mem ha, schemaVocab_roundTrip_mem hb] at h'

theorem distinctKeys_map_camelToSnake (ks : List String) (hnd : ks.Nodup)
    (hmem : ∀ k ∈ ks, k ∈ schemaVocab) :
    distinctKeys (ks.map camelToSnake) = true := by
  induction ks with
  | nil => rfl
  | cons k ks ih =>
    have hnd' := List.nodup_cons.mp hnd
    show (!((ks.map camelToSnake).contains (camelToSnake k)) &&
      distinctKeys (ks.map camelToSnake)) = true
    rw [Bool.and_eq_true]
    constructor
    · rw [Bool.not_eq_true']
      cases hb : (ks.map camelToSnake).contains (camelToSnake k) with
      | false => rfl
      | true =>
        have hmm : camelToSnake k ∈ ks.map camelToSnake := List.mem_of_elem_eq_true hb
        obtain ⟨k', hk', hkk⟩ := List.mem_map.mp hmm
        have hk'k : k' = k :=
          camelToSnake_inj_on_vocab (hmem k' (List.mem_cons_of_mem _ hk'))
            (hmem k (List.mem_cons_self _ _)) hkk
        exact absurd (hk'k ▸ hk') hnd'.1
    · exact ih hnd'.2 (fun k' h' => hmem k' (List.mem_cons_of_mem _ h'))

/-! ## String append helpers -/

theorem strAppend_assoc (a b c : String) : a ++ b ++ c = a ++ (b ++ c) := by
  obtain ⟨as⟩ := a; obtain ⟨bs⟩ := b; obtain ⟨cs⟩ := c
  exact congrArg String.mk (List.append_assoc as bs cs)

theorem strNil_append (a : String) : "" ++ a = a := by
  obtain ⟨as⟩ := a
  exact congrArg String.mk (List.nil_append as)

theorem strAppend_nil (a : String) : a ++ "" = a := by
  obtain ⟨as⟩ := a
  exact congrArg String.mk (List.append_nil as)

/-! ## The `transformKeys` contract (claim C2) -/

theorem objSet_append (acc : List (String × Jsonish)) (k : String) (v : Jsonish)
    (h : ∀ p ∈ acc, ¬(p.1 = k)) : objSet acc k v = acc ++ [(k, v)] := by
  have hna : ¬(acc.any (fun p => p.1 == k) = true) := by
    simp only [List.any_eq_true, beq_iff_eq, not_exists, not_and]
    exact h
  unfold objSet
  rw [if_neg hna]

theorem distinctKeys_cons {x : String} {xs : List String}
    (h : distinctKeys (x :: xs) = true) : ¬(x ∈ xs) ∧ distinctKeys xs = true := by
  have h' := h
  unfold distinctKeys at h'
  rw [Bool.and_eq_true, Bool.not_eq_true'] at h'
  refine ⟨?_, h'.2⟩
  intro hmem
  have : xs.contains x = true := List.elem_eq_true_of_mem hmem
  rw [this] at h'
  exact absurd h'.1 (by simp)

theorem transformKeysObj_eq_map (f : String → String) :
    ∀ (fs acc : List (String × Jsonish)),
      distinctKeys (fs.map (fun kv => f kv.1)) = true →
      (∀ kv ∈ fs, ∀ p ∈ acc, ¬(p.1 = f kv.1)) →
      transformKeysObj f fs acc = acc ++ fs.map (fun kv => (f kv.1, transformKeys f kv.2)) := by
  intro fs
  induction fs with
  | nil => intro acc _ _; simp [transformKeysObj]
  | cons kv fs ih =>
    intro acc hd hfresh
    obtain ⟨k, v⟩ := kv
    have hdc := distinctKeys_cons (by simpa using hd)
    have h1 : objSet acc (f k) (transformKeys f v) = acc ++ [(f k, transformKeys f v)] :=
      objSet_append _ _ _ (fun p hp => hfresh (k, v) (List.mem_cons_self _ _) p hp)
    have h2 : transformKeysObj f fs (acc ++ [(f k, transformKeys f v)]) =
        (acc ++ [(f k, transformKeys f v)]) ++
          fs.map (fun kv => (f kv.1, transformKeys f kv.2)) := by
      refine ih _ hdc.2 ?_
      intro kv' hkv' p hp
      rcases List.mem_append.mp hp with hpa | hps
      · exact hfresh kv' (List.mem_cons_of_mem _ hkv') p hpa
      · have hp1 : p.1 = f k := by
          rcases List.mem_singleton.mp hps with rfl
          rfl
        intro hcontra
        exact hdc.1 (by
          rw [hp1] at hcontra
          exact hcontra ▸ List.mem_map_of_mem (fun kv => f kv.1) hkv')
    show transformKeysObj f fs (objSet acc (f k) (transformKeys f v)) = _
    rw [h1, h2]
    simp [List.append_assoc]

theorem transformKeys_erase_key (f : String → String) :
    ∀ j, keysInjOn f j = true →
      eraseKeys (transformKeys f j) = eraseKeys j ∧
      keyList (transformKeys f j) = (keyList j).map f := by
  intro j
  induction j using Jsonish.recAll with
  | hnull => exact fun _ => ⟨rfl, rfl⟩
  | hundef => exact fun _ => ⟨rfl, rfl⟩
  | hbool b => exact fun _ => ⟨rfl, rfl⟩
  | hnum n => exact fun _ => ⟨rfl, rfl⟩
  | hstr s => exact fun _ => ⟨rfl, rfl⟩
  | harr xs ihs =>
    intro h
    have key : ∀ (ys : List Jsonish),
        (∀ x ∈ ys, keysInjOn f x = true →
          eraseKeys (transformKeys f x) = eraseKeys x ∧
          keyList (transformKeys f x) = (keyList x).map f) →
        keysInjOnArr f ys = true →
        eraseKeysArr (transformKeysArr f ys) = eraseKeysArr ys ∧
        keyListArr (transformKeysArr f ys) = (keyListArr ys).map f := by
      intro ys
      induction ys with
      | nil => exact fun _ _ => ⟨rfl, rfl⟩
      | cons y ys ihy =>
        intro hmem hinj
        have hinj' : keysInjOn f y = true ∧ keysInjOnArr f ys = true := by
          simpa [keysInjOnArr, Bool.and_eq_true] using hinj
        have hy := hmem y (List.mem_cons_self _ _) hinj'.1
        have hys := ihy (fun x hx h' => hmem x (List.mem_cons_of_mem _ hx) h') hinj'.2
        constructor
        · simp [transformKeysArr, eraseKeysArr, hy.1, hys.1]
        · simp [transformKeysArr, keyListArr, hy.2, hys.2]
    have res := key xs ihs (by simpa [keysInjOn] using h)
    exact ⟨congrArg Jsonish.arr res.1, res.2⟩
  | hobj fs ihs =>
    intro h
    have hparts : distinctKeys (fs.map (fun kv => f kv.1)) = true ∧
        keysInjOnObj f fs = true := by
      simpa [keysInjOn, Bool.and_eq_true] using h
    have hmap : transformKeysObj f fs [] =
        fs.map (fun kv => (f kv.1, transformKeys f kv.2)) := by
      have := transformKeysObj_eq_map f fs [] hparts.1 (by intro kv _ p hp; cases hp)
      simpa using this
    have key : ∀ (gs : List (String × Jsonish)),
        (∀ kv ∈ gs, keysInjOn f kv.2 = true →
          eraseKeys (transformKeys f kv.2) = eraseKeys kv.2 ∧
          keyList (transformKeys f kv.2) = (keyList kv.2).map f) →
        keysInjOnObj f gs = true →
        eraseKeysObj (gs.map (fun kv => (f kv.1, transformKeys f kv.2))) = eraseKeysObj gs ∧
        keyListObj (gs.map (fun kv => (f kv.1, transformKeys f kv.2))) =
          (keyListObj gs).map f := by
      intro gs
      induction gs with
      | nil => exact fun _ _ => ⟨rfl, rfl⟩
      | cons kv gs ihg =>
        intro hmem hinj
        obtain ⟨k, v⟩ := kv
        have hinj' : keysInjOn f v = true ∧ keysInjOnObj f gs = true := by
          simpa [keysInjOnObj, Bool.and_eq_true] using hinj
        have hv := hmem (k, v) (List.mem_cons_self _ _) hinj'.1
        have hgs := ihg (fun kv' hkv' h' => hmem kv' (List.mem_cons_of_mem _ hkv') h') hinj'.2
        constructor
        · simp [eraseKeysObj, hv.1, hgs.1]
        · simp [keyListObj, hv.2, hgs.2]
    have res := key fs ihs hparts.2
    constructor
    · show eraseKeys (Jsonish.obj (transformKeysObj f fs [])) = _
      rw [hmap]
      exact congrArg Jsonish.obj res.1
    · show keyList (Jsonish.obj (transformKeysObj f fs [])) = _
      rw [hmap]
      exact res.2

/-- C2 (counterexample to the claim as stated): when the key transform
collides on a mapping's keys — here `camelToSnake` sends both `aB` and
`a_b` to `a_b` — later entries overwrite earlier ones, so the copy is not
structurally identical and the keys are not rewritten one-for-one. -/
theorem transformKeys_structural_counterexample :
    toSnakeCase (Jsonish.obj [("aB", Jsonish.num 1), ("a_b", Jsonish.num 2)]) =
      Jsonish.obj [("a_b", Jsonish.num 2)] ∧
    ¬(keyList (toSnakeCase (Jsonish.obj [("aB", Jsonish.num 1), ("a_b", Jsonish.num 2)])) =
      (keyList (Jsonish.obj [("aB", Jsonish.num 1), ("a_b", Jsonish.num 2)])).map camelToSnake) := by
  constructor
  · rfl
  · intro h
    have h1 : keyList (toSnakeCase (Jsonish.obj [("aB", Jsonish.num 1), ("a_b", Jsonish.num 2)])) =
        ["a_b"] := rfl
    have h2 : (keyList (Jsonish.obj [("aB", Jsonish.num 1), ("a_b", Jsonish.num 2)])).map
        camelToSnake = ["a_b", "a_b"] := rfl
    rw [h1, h2] at h
    exact absurd h (by decide)

/-- C2 (amended): for every nested structure on which the key transform
produces no collisions within any single mapping, `transformKeys` returns
a structurally identical copy (same `eraseKeys` erasure: same shape and
the same scalar values, `null` included, in the same positions) whose
mapping keys are exactly the original keys rewritten by the transform, in
order; scalars are returned unchanged; `toCamelCase` and `toSnakeCase` are
the instances at `snakeToCamel` and `camelToSnake`. When the transform
does collide on a mapping's keys, later entries overwrite earlier ones
(see the counterexample). -/
theorem transformKeys_contract (f : String → String) (j : Jsonish)
    (h : keysInjOn f j = true) :
    eraseKeys (transformKeys f j) = eraseKeys j ∧
    keyList (transformKeys f j) = (keyList j).map f ∧
    transformKeys f .null = .null ∧
    transformKeys f .undef = .undef ∧
    (∀ b, transformKeys f (.bool b) = .bool b) ∧
    (∀ n, transformKeys f (.num n) = .num n) ∧
    (∀ s, transformKeys f (.str s) = .str s) ∧
    toCamelCase j = transformKeys snakeToCamel j ∧
    toSnakeCase j = transformKeys camelToSnake j := by
  have t := transformKeys_erase_key f j h
  exact ⟨t.1, t.2, rfl, rfl, fun _ => rfl, fun _ => rfl, fun _ => rfl, rfl, rfl⟩

/-- Witness for C2 at a concrete order-like payload under `camelToSnake`. -/
theorem transformKeys_contract_witness :
    keysInjOn camelToSnake
      (Jsonish.obj [("lineItems", Jsonish.arr [Jsonish.obj [("variantId", Jsonish.num 5)]]),
        ("sinceId", Jsonish.null)]) = true ∧
    eraseKeys (transformKeys camelToSnake
      (Jsonish.obj [("lineItems", Jsonish.arr [Jsonish.obj [("variantId", Jsonish.num 5)]]),
        ("sinceId", Jsonish.null)])) =
      eraseKeys
        (Jsonish.obj [("lineItems", Jsonish.arr [Jsonish.obj [("variantId", Jsonish.num 5)]]),
          ("sinceId", Jsonish.null)]) ∧
    keyList (transformKeys camelToSnake
      (Jsonish.obj [("lineItems", Jsonish.arr [Jsonish.obj [("variantId", Jsonish.num 5)]]),
        ("sinceId", Jsonish.null)])) =
      (keyList
        (Jsonish.obj [("lineItems", Jsonish.arr [Jsonish.obj [("variantId", Jsonish.num 5)]]),
          ("sinceId", Jsonish.null)])).map camelToSnake := by
  have h : keysInjOn camelToSnake
      (Jsonish.obj [("lineItems", Jsonish.arr [Jsonish.obj [("variantId", Jsonish.num 5)]]),
        ("sinceId", Jsonish.null)]) = true := by decide
  have t := transformKeys_contract camelToSnake _ h
  exact ⟨h, t.1, t.2.1⟩

/-! ## Request executor claims (C5, C6, C7) -/

/-- C5: a 429 response raises `RateLimitError` whose wait hint is the
parsed numeric value of a present `Retry-After` header, and 60 when the
header is absent. -/
theorem rateLimit_retryAfter (body : Option Jsonish) :
    (∀ (s : String) (n : Int), parseIntJs s = some n →
      requestOutcome 429 (some s) body =
        .rateLimited "Rate limit exceeded" (some n)) ∧
    requestOutcome 429 none body = .rateLimited "Rate limit exceeded" (some 60) := by
  constructor
  · intro s n hpn
    have hs : ¬(s == "") = true := by
      intro hempty
      rw [beq_iff_eq] at hempty
      subst hempty
      simp [parseIntJs, parseLeadingDigits] at hpn
    have hh : retryAfterHint (some s) = some n := by
      simp only [retryAfterHint]
      rw [if_neg hs]
      exact hpn
    simp [requestOutcome, hh]
  · rfl

/-- Witness for C5: `Retry-After: 30` yields hint 30 (and the absent
header yields 60). -/
theorem rateLimit_retryAfter_witness :
    requestOutcome 429 (some "30") none = .rateLimited "Rate limit exceeded" (some 30) ∧
    requestOutcome 429 none none = .rateLimited "Rate limit exceeded" (some 60) :=
  ⟨(rateLimit_retryAfter none).1 "30" 30 (by decide), (rateLimit_retryAfter none).2⟩

/-- C6 (counterexample to the claim as stated): the generic message the
executor attaches is `Shopify API error: <status>`, not
`API error: <status>`. -/
theorem apiError_generic_message_counterexample :
    requestOutcome 500 none none = .apiError "Shopify API error: 500" 500 ∧
    "Shopify API error: 500" ≠ "API error: 500" := by
  refine ⟨rfl, by decide⟩

/-- C6 (amended): a non-2xx status other than 429/401/403/404 raises
`ApiError` carrying the status, whose message is the body's `errors` field
when the body parses as JSON and that field is a non-empty string, the
`JSON.stringify` of that field when it is any other truthy value, and the
generic `Shopify API error: <status>` otherwise (unparseable body, missing
or falsy `errors`). -/
theorem apiError_message_spec (status : Nat) (hdr : Option String) (body : Option Jsonish)
    (h429 : status ≠ 429) (h401 : status ≠ 401) (h403 : status ≠ 403) (h404 : status ≠ 404)
    (hok : ¬(200 ≤ status ∧ status ≤ 299)) :
    requestOutcome status hdr body = .apiError (extractErrorMessage status body) status ∧
    (body = none → extractErrorMessage status body = "Shopify API error: " ++ toString status) ∧
    (∀ j, body = some j → (j.get "errors").truthy = false →
      extractErrorMessage status body = "Shopify API error: " ++ toString status) ∧
    (∀ j s, body = some j → j.get "errors" = .str s → s ≠ "" →
      extractErrorMessage status body = s) ∧
    (∀ j e, body = some j → j.get "errors" = e → e.truthy = true →
      (∀ s, e ≠ .str s) → extractErrorMessage status body = jsonStringify e) := by
  have e429 : (status == 429) = false := by simp [h429]
  have e401 : (status == 401) = false := by simp [h401]
  have e403 : (status == 403) = false := by simp [h403]
  have e404 : (status == 404) = false := by simp [h404]
  have hnotok : (!(decide (200 ≤ status) && decide (status ≤ 299))) = true := by
    by_cases h2 : 200 ≤ status
    · have h3 : ¬(status ≤ 299) := fun h => hok ⟨h2, h⟩
      simp [h2, h3]
    · simp [h2]
  refine ⟨?_, ?_, ?_, ?_, ?_⟩
  · simp [requestOutcome, e429, e401, e403, e404, hnotok]
  · intro hb; subst hb; rfl
  · intro j hb hfalsy
    subst hb
    simp only [extractErrorMessage]
    rw [if_neg]
    rw [hfalsy]
    exact Bool.false_ne_true
  · intro j s hb herr hne
    subst hb
    simp only [extractErrorMessage]
    rw [herr]
    rw [if_pos]
    have : (s == "") = false := by simp [hne]
    simp [Jsonish.truthy, this]
  · intro j e hb herr htruthy hnotstr
    subst hb
    simp only [extractErrorMessage]
    rw [herr, if_pos htruthy]
    cases e with
    | str s => exact absurd rfl (hnotstr s)
    | null => rfl
    | undef => rfl
    | bool b => rfl
    | num n => rfl
    | arr xs => rfl
    | obj fs => rfl

/-- Witness for C6: a 500 with body `{"errors": "foo"}` raises an
`ApiError` whose message is exactly `foo`; with an unparseable body the
message is the generic one. -/
theorem apiError_message_spec_witness :
    requestOutcome 500 none (some (Jsonish.obj [("errors", Jsonish.str "foo")])) =
      .apiError "foo" 500 ∧
    requestOutcome 502 none none = .apiError "Shopify API error: 502" 502 := by
  constructor
  · have h := apiError_message_spec 500 none (some (Jsonish.obj [("errors", Jsonish.str "foo")]))
      (by decide) (by decide) (by decide) (by decide) (by decide)
    have hm := h.2.2.2.1 (Jsonish.obj [("errors", Jsonish.str "foo")]) "foo" rfl rfl (by decide)
    rw [h.1, hm]
  · have h := apiError_message_spec 502 none none
      (by decide) (by decide) (by decide) (by decide) (by decide)
    have hm := h.2.1 rfl
    rw [h.1, hm]
    rfl

/-- C7: a 204 yields a success outcome carrying the `undefined` sentinel
(`none`), which is not an object and differs from the outcome of a 200
whose body is the empty JSON object. -/
theorem noContent_sentinel (hdr hdr' : Option String) (body : Option Jsonish) :
    requestOutcome 204 hdr body = .success none ∧
    requestOutcome 200 hdr' (some (Jsonish.obj [])) = .success (some (Jsonish.obj [])) ∧
    RequestOutcome.success none ≠ RequestOutcome.success (some (Jsonish.obj [])) := by
  refine ⟨rfl, rfl, ?_⟩
  intro h
  injection h with h'
  exact Option.noConfusion h'

/-- C3: evaluation at the failing input. `createCustomCollection` (and
`createDraftOrder`) snake-case only the inner input, so the serialized
body's wrapper key stays in internal casing (`customCollection`), whereas
wire-casing the wrapped input would produce `custom_collection`. -/
theorem createBody_wrapper_key :
    createCustomCollectionBody (Jsonish.obj [("title", Jsonish.str "Summer")]) =
      Jsonish.obj [("customCollection", Jsonish.obj [("title", Jsonish.str "Summer")])] ∧
    jsonStringify (createCustomCollectionBody (Jsonish.obj [("title", Jsonish.str "Summer")])) =
      "\x7b\"customCollection\":\x7b\"title\":\"Summer\"\x7d\x7d" ∧
    camelToSnake "customCollection" = "custom_collection" ∧
    "customCollection" ≠ camelToSnake "customCollection" ∧
    toSnakeCase (Jsonish.obj [("customCollection", Jsonish.obj [("title", Jsonish.str "Summer")])]) =
      Jsonish.obj [("custom_collection", Jsonish.obj [("title", Jsonish.str "Summer")])] ∧
    createDraftOrderBody (Jsonish.obj [("note", Jsonish.str "x")]) =
      Jsonish.obj [("draftOrder", Jsonish.obj [("note", Jsonish.str "x")])] ∧
    createProductBody (Jsonish.obj [("title", Jsonish.str "Summer")]) =
      Jsonish.obj [("product", Jsonish.obj [("title", Jsonish.str "Summer")])] := by
  exact ⟨rfl, rfl, rfl, by decide, rfl, rfl, rfl⟩

/-- C4 (counterexample to the claim as stated): with a supplied limit of 0
and an empty result, the item count equals the requested limit, yet
`hasMore` is `false` — `params?.limit || 50` treats 0 as absent. -/
theorem listEnvelope_hasMore_counterexample :
    ¬(((listEnvelope [] (some 0)).hasMore = true) ↔
      (([] : List Jsonish).length = (some (0 : Nat)).getD 50)) := by
  intro h
  have h2 : ([] : List Jsonish).length = (some (0 : Nat)).getD 50 := rfl
  have h1 := h.mpr h2
  exact absurd h1 (by decide)

/-- C4 (amended): every list operation's envelope has `count` equal to the
number of returned items and `hasMore` true exactly when that number
equals the requested limit, where the limit defaults to 50 both when no
limit is supplied and when the supplied limit is 0 (a falsy JS number); in
particular fewer items than the effective limit gives `hasMore = false`.
`total` and `nextCursor` are never set. -/
theorem listEnvelope_spec (items : List Jsonish) (limit : Option Nat) :
    (listEnvelope items limit).items = items ∧
    (listEnvelope items limit).count = items.length ∧
    ((listEnvelope items limit).hasMore = true ↔ items.length = effectiveLimit limit) ∧
    (items.length < effectiveLimit limit → (listEnvelope items limit).hasMore = false) ∧
    effectiveLimit none = 50 ∧
    effectiveLimit (some 0) = 50 ∧
    (∀ l : Nat, l ≠ 0 → effectiveLimit (some l) = l) ∧
    (listEnvelope items limit).total = none ∧
    (listEnvelope items limit).nextCursor = none := by
  refine ⟨rfl, rfl, ?_, ?_, rfl, rfl, ?_, rfl, rfl⟩
  · exact beq_iff_eq
  · intro hlt
    have : items.length ≠ effectiveLimit limit := Nat.ne_of_lt hlt
    simpa [listEnvelope] using this
  · intro l hl
    simp [effectiveLimit, hl]

/-- Witness for C4: one item at limit 1 gives `hasMore = true`; one item
at limit 2 gives `hasMore = false`; a non-zero supplied limit is used
as-is. -/
theorem listEnvelope_spec_witness :
    (listEnvelope [Jsonish.obj []] (some 1)).hasMore = true ∧
    (listEnvelope [Jsonish.obj []] (some 2)).hasMore = false ∧
    (listEnvelope [Jsonish.obj []] (some 1)).count = 1 ∧
    effectiveLimit (some 3) = 3 := by
  refine ⟨?_, ?_, ?_, ?_⟩
  · exact (listEnvelope_spec [Jsonish.obj []] (some 1)).2.2.1.mpr (by decide)
  · exact (listEnvelope_spec [Jsonish.obj []] (some 2)).2.2.2.1 (by decide)
  · exact (listEnvelope_spec [Jsonish.obj []] (some 1)).2.1
  · exact (listEnvelope_spec [] none).2.2.2.2.2.2.1 3 (by decide)

/-! ## Query builder claim (C8) -/

theorem jsToString_transformKeys (f : String → String) :
    ∀ v, jsToString (transformKeys f v) = jsToString v := by
  intro v
  induction v using Jsonish.recAll with
  | hnull => rfl
  | hundef => rfl
  | hbool b => rfl
  | hnum n => rfl
  | hstr s => rfl
  | hobj fs _ => rfl
  | harr xs ihs =>
    have helem : ∀ x ∈ xs, jsJoinElem (transformKeys f x) = jsJoinElem x := by
      intro x hx
      cases x with
      | null => rfl
      | undef => rfl
      | bool b => rfl
      | num n => rfl
      | str s => rfl
      | arr ys => simpa [transformKeys, jsJoinElem] using ihs (.arr ys) hx
      | obj gs => rfl
    have key : ∀ (ys : List Jsonish),
        (∀ x ∈ ys, jsJoinElem (transformKeys f x) = jsJoinElem x) →
        jsArrJoin (transformKeysArr f ys) = jsArrJoin ys := by
      intro ys
      induction ys with
      | nil => exact fun _ => rfl
      | cons y ys ihy =>
        intro hmem
        cases ys with
        | nil =>
          show jsArrJoin [transformKeys f y] = jsArrJoin [y]
          simp [jsArrJoin, hmem y (List.mem_cons_self _ _)]
        | cons z zs =>
          have hz := ihy (fun x hx => hmem x (List.mem_cons_of_mem _ hx))
          show jsJoinElem (transformKeys f y) ++ "," ++
              jsArrJoin (transformKeysArr f (z :: zs)) = _
          rw [hmem y (List.mem_cons_self _ _), hz]
          rfl
    show jsArrJoin (transformKeysArr f xs) = jsArrJoin xs
    exact key xs helem

theorem isNullish_transformKeys (f : String → String) (v : Jsonish) :
    (transformKeys f v).isNullish = v.isNullish := by
  cases v <;> rfl

theorem queryValueString_transformKeys (f : String → String) (v : Jsonish) :
    queryValueString (transformKeys f v) = queryValueString v := by
  cases v with
  | arr xs =>
    show jsArrJoin (transformKeysArr f xs) = jsArrJoin xs
    have := jsToString_transformKeys f (.arr xs)
    simpa [transformKeys, jsToString] using this
  | null => rfl
  | undef => rfl
  | bool b => rfl
  | num n => rfl
  | str s => rfl
  | obj fs => rfl

theorem urlParamsSet_append (acc : List (String × String)) (k v : String)
    (h : ∀ p ∈ acc, ¬(p.1 = k)) : urlParamsSet acc k v = acc ++ [(k, v)] := by
  induction acc with
  | nil => rfl
  | cons p ps ih =>
    have hp : (p.1 == k) = false := by
      simp [h p (List.mem_cons_self _ _)]
    show (if (p.1 == k) = true then _ else p :: urlParamsSet ps k v) = _
    rw [hp]
    simp only [Bool.false_eq_true, if_false]
    rw [ih (fun q hq => h q (List.mem_cons_of_mem _ hq))]
    rfl

theorem foldl_urlParamsSet (entries : List (String × Jsonish)) :
    ∀ (acc : List (String × String)),
      distinctKeys (entries.map (fun kv => kv.1)) = true →
      (∀ kv ∈ entries, ∀ p ∈ acc, ¬(p.1 = kv.1)) →
      entries.foldl
        (fun qp kv =>
          if kv.2.isNullish then qp
          else urlParamsSet qp kv.1 (queryValueString kv.2)) acc =
      acc ++ entries.filterMap (fun kv =>
        if kv.2.isNullish then none else some (kv.1, queryValueString kv.2)) := by
  induction entries with
  | nil => intro acc _ _; simp
  | cons kv es ih =>
    intro acc hd hfresh
    obtain ⟨k, v⟩ := kv
    have hdc := distinctKeys_cons (by simpa using hd)
    by_cases hnv : v.isNullish = true
    · have step : (if (k, v).2.isNullish then acc
          else urlParamsSet acc (k, v).1 (queryValueString (k, v).2)) = acc := by
        simp [hnv]
      show List.foldl _ (if (k, v).2.isNullish = true then acc else _) es = _
      rw [if_pos hnv]
      rw [ih acc hdc.2 (fun kv' hkv' p hp => hfresh kv' (List.mem_cons_of_mem _ hkv') p hp)]
      simp [List.filterMap_cons, hnv]
    · have hnv' : v.isNullish = false := by
        cases hb : v.isNullish with
        | true => exact absurd hb hnv
        | false => rfl
      have hset : urlParamsSet acc k (queryValueString v) = acc ++ [(k, queryValueString v)] :=
        urlParamsSet_append acc k _ (fun p hp => hfresh (k, v) (List.mem_cons_self _ _) p hp)
      show List.foldl _ (if (k, v).2.isNullish = true then acc else
          urlParamsSet acc k (queryValueString v)) es = _
      rw [if_neg (by simp [hnv']), hset]
      rw [ih (acc ++ [(k, queryValueString v)]) hdc.2 ?fresh]
      case fresh =>
        intro kv' hkv' p hp
        rcases List.mem_append.mp hp with hpa | hps
        · exact hfresh kv' (List.mem_cons_of_mem _ hkv') p hpa
        · rcases List.mem_singleton.mp hps with rfl
          intro hcontra
          have hk : k = kv'.1 := hcontra
          exact hdc.1 (by
            show k ∈ es.map (fun kv => kv.1)
            rw [hk]
            exact List.mem_map_of_mem (fun kv => kv.1) hkv')
      simp [List.filterMap_cons, hnv', List.append_assoc]

/-- C8: for every option mapping whose wire-cased keys are pairwise
distinct — which holds for every option object with distinct keys drawn
from the schema vocabulary, per the second conjunct — the query builder
wire-cases each key, omits entries whose value is `undefined` or `null`,
joins array values with commas into one string value, and stringifies
every other value, preserving entry order. -/
theorem buildQueryParams_spec (params : List (String × Jsonish))
    (hd : distinctKeys (params.map (fun kv => camelToSnake kv.1)) = true) :
    (buildQueryParams params =
      params.filterMap (fun kv =>
        if kv.2.isNullish then none
        else some (camelToSnake kv.1, queryValueString kv.2))) ∧
    (∀ ks : List String, ks.Nodup → (∀ k ∈ ks, k ∈ schemaVocab) →
      distinctKeys (ks.map camelToSnake) = true) := by
  refine ⟨?_, fun ks h1 h2 => distinctKeys_map_camelToSnake ks h1 h2⟩
  unfold buildQueryParams
  rw [transformKeysObj_eq_map camelToSnake params [] hd (by intro kv _ p hp; cases hp)]
  rw [List.nil_append]
  rw [foldl_urlParamsSet _ []
    (by simpa [List.map_map, Function.comp] using hd)
    (by intro kv _ p hp; cases hp)]
  rw [List.nil_append, List.filterMap_map]
  have hcong : ∀ kv ∈ params,
      ((fun kv : String × Jsonish =>
          if kv.2.isNullish then none
          else some (kv.1, queryValueString kv.2)) ∘
        (fun kv : String × Jsonish => (camelToSnake kv.1, transformKeys camelToSnake kv.2))) kv =
      (fun kv : String × Jsonish =>
          if kv.2.isNullish then none
          else some (camelToSnake kv.1, queryValueString kv.2)) kv := by
    intro kv _
    simp only [Function.comp]
    rw [isNullish_transformKeys, queryValueString_transformKeys]
  exact List.filterMap_congr hcong

/-- Witness for C8 at the spec's example:
`{ limit: 2, sinceId: "5", ids: ["10","11"] }` yields exactly
`limit=2`, `since_id=5`, `ids=10,11`. -/
theorem buildQueryParams_spec_witness :
    distinctKeys ([("limit", Jsonish.num 2), ("sinceId", Jsonish.str "5"),
      ("ids", Jsonish.arr [Jsonish.str "10", Jsonish.str "11"])].map
        (fun kv => camelToSnake kv.1)) = true ∧
    buildQueryParams [("limit", Jsonish.num 2), ("sinceId", Jsonish.str "5"),
      ("ids", Jsonish.arr [Jsonish.str "10", Jsonish.str "11"])] =
      [("limit", "2"), ("since_id", "5"), ("ids", "10,11")] := by
  have h : distinctKeys ([("limit", Jsonish.num 2), ("sinceId", Jsonish.str "5"),
      ("ids", Jsonish.arr [Jsonish.str "10", Jsonish.str "11"])].map
        (fun kv => camelToSnake kv.1)) = true := by decide
  refine ⟨h, ?_⟩
  rw [(buildQueryParams_spec _ h).1]
  rfl

/-! ## Markdown formatter claims (C9, C10) -/

theorem containsText_of_part {s l pat : String}
    (h1 : containsText s l) (h2 : containsText l pat) : containsText s pat := by
  obtain ⟨a, b, rfl⟩ := h1
  obtain ⟨c, d, rfl⟩ := h2
  exact ⟨a ++ c, d ++ b, by simp only [strAppend_assoc]⟩

theorem containsText_joinLines {lines : List String} {l : String}
    (h : l ∈ lines) : containsText (joinLines lines) l := by
  induction lines with
  | nil => cases h
  | cons x ls ih =>
    rcases List.mem_cons.mp h with rfl | hmem
    · cases ls with
      | nil => exact ⟨"", "", by rw [strNil_append, strAppend_nil]; rfl⟩
      | cons y ys =>
        refine ⟨"", "\n" ++ joinLines (y :: ys), ?_⟩
        show l ++ "\n" ++ joinLines (y :: ys) = "" ++ l ++ ("\n" ++ joinLines (y :: ys))
        rw [strNil_append, ← strAppend_assoc]
    · cases ls with
      | nil => cases hmem
      | cons y ys =>
        obtain ⟨a, b, hab⟩ := ih hmem
        refine ⟨x ++ "\n" ++ a, b, ?_⟩
        show x ++ "\n" ++ joinLines (y :: ys) = _
        rw [hab, ← strAppend_assoc, ← strAppend_assoc]

theorem isComposite_not_nullish (v : Jsonish) (h : v.isComposite = true) :
    (!v.isNullish) = true := by
  cases v with
  | arr xs => rfl
  | obj fs => rfl
  | null => exact Bool.noConfusion h
  | undef => exact Bool.noConfusion h
  | bool b => exact Bool.noConfusion h
  | num n => exact Bool.noConfusion h
  | str s => exact Bool.noConfusion h

theorem formatObjectLines_eq (fs : List (String × Jsonish)) :
    formatObjectLines fs =
      (fs.filter (fun kv => !kv.2.isNullish)).flatMap (fun kv => entryLinesMd kv.1 kv.2) := by
  induction fs with
  | nil => rfl
  | cons kv fs ih =>
    obtain ⟨k, v⟩ := kv
    by_cases hv : v.isNullish = true
    · show (if v.isNullish = true then formatObjectLines fs else _) = _
      rw [if_pos hv, ih]
      simp [List.filter_cons, hv]
    · have hv' : (!v.isNullish) = true := by
        cases hb : v.isNullish with
        | true => exact absurd hb hv
        | false => rfl
      show (if v.isNullish = true then _ else entryLinesMd k v ++ formatObjectLines fs) = _
      rw [if_neg hv, ih]
      simp [List.filter_cons, hv']

/-- C9: single-entity Markdown rendering equals the spec-side rendering —
a heading, then per non-nullish field either one `**Key:** value` line or
(for mapping/sequence values) an embedded pretty-printed JSON code block;
`null`/`undefined` fields are skipped; and the pretty-printed JSON of
every composite field value appears verbatim in the output. -/
theorem formatObjectAsMarkdown_spec (data : List (String × Jsonish)) (entityType : String) :
    formatObjectAsMarkdown data entityType = formatSingleEntitySpec data entityType ∧
    (∀ kv ∈ data, kv.2.isComposite = true →
      containsText (formatObjectAsMarkdown data entityType) (jsonPretty kv.2)) := by
  constructor
  · unfold formatObjectAsMarkdown formatSingleEntitySpec
    rw [formatObjectLines_eq]
  · intro kv hkv hcomp
    have hnn : (!kv.2.isNullish) = true := isComposite_not_nullish kv.2 hcomp
    have hmemf : kv ∈ data.filter (fun kv => !kv.2.isNullish) :=
      List.mem_filter.mpr ⟨hkv, hnn⟩
    have hlines : jsonPretty kv.2 ∈ entryLinesMd kv.1 kv.2 := by
      unfold entryLinesMd
      rw [if_pos hcomp]
      exact List.mem_cons_of_mem _ (List.mem_cons_of_mem _ (List.mem_cons_self _ _))
    have hmem : jsonPretty kv.2 ∈ formatObjectLines data := by
      rw [formatObjectLines_eq]
      exact List.mem_flatMap.mpr ⟨kv, hmemf, hlines⟩
    exact containsText_joinLines
      (List.mem_append.mpr (Or.inr hmem))

/-- Witness for C9: an order-like entity with a `lineItems` array renders
that array's pretty JSON inside the Markdown output. -/
theorem formatObjectAsMarkdown_spec_witness :
    containsText
      (formatObjectAsMarkdown
        [("id", Jsonish.num 1), ("note", Jsonish.null),
          ("lineItems", Jsonish.arr [Jsonish.obj [("quantity", Jsonish.num 2)]])] "orders")
      (jsonPretty (Jsonish.arr [Jsonish.obj [("quantity", Jsonish.num 2)]])) :=
  (formatObjectAsMarkdown_spec
    [("id", Jsonish.num 1), ("note", Jsonish.null),
      ("lineItems", Jsonish.arr [Jsonish.obj [("quantity", Jsonish.num 2)]])] "orders").2
    ("lineItems", Jsonish.arr [Jsonish.obj [("quantity", Jsonish.num 2)]])
    (List.mem_cons_of_mem _ (List.mem_cons_of_mem _ (List.mem_cons_self _ _)))
    rfl

theorem cursorLine_mem_headerLines (p : PaginatedResponse) (entityType : String)
    (h : p.hasMore = true) :
    ("**More available:** Yes (cursor: `" ++ optCursorString p.nextCursor ++ "`)") ∈
      paginatedHeaderLines p entityType := by
  unfold paginatedHeaderLines
  rw [if_pos h]
  exact List.mem_append.mpr (Or.inl (List.mem_append.mpr (Or.inr
    (List.mem_singleton.mpr rfl))))

/-- C10: the client's list envelopes never set `nextCursor`, and the
Markdown renderer emits the cursor line whenever `hasMore` is true with no
guard on `nextCursor`, so rendering such an envelope with `hasMore = true`
interpolates the absent cursor and the output contains the literal text
``cursor: `undefined` ``. -/
theorem listEnvelope_markdown_undefined_cursor :
    (∀ (items : List Jsonish) (limit : Option Nat) (entityType : String),
      items.all (fun x => x.isObj) = true →
      (listEnvelope items limit).hasMore = true →
      containsText (formatPaginatedAsMarkdown (listEnvelope items limit) entityType)
        "cursor: `undefined`") ∧
    (∀ (p : PaginatedResponse) (entityType : String), p.hasMore = true →
      ("**More available:** Yes (cursor: `" ++ optCursorString p.nextCursor ++ "`)") ∈
        paginatedHeaderLines p entityType) := by
  constructor
  · intro items limit entityType _ h
    have hmem := cursorLine_mem_headerLines (listEnvelope items limit) entityType h
    have h1 : containsText (formatPaginatedAsMarkdown (listEnvelope items limit) entityType)
        ("**More available:** Yes (cursor: `" ++
          optCursorString (listEnvelope items limit).nextCursor ++ "`)") := by
      unfold formatPaginatedAsMarkdown
      by_cases hz : ((listEnvelope items limit).items.length == 0) = true
      · rw [if_pos hz]
        exact containsText_joinLines (List.mem_append.mpr (Or.inl hmem))
      · rw [if_neg hz]
        exact containsText_joinLines (List.mem_append.mpr (Or.inl hmem))
    exact containsText_of_part h1 ⟨"**More available:** Yes (", ")", rfl⟩
  · exact fun p entityType h => cursorLine_mem_headerLines p entityType h

/-- Witness for C10: one product-shaped item at limit 1. -/
theorem listEnvelope_markdown_undefined_cursor_witness :
    containsText
      (formatPaginatedAsMarkdown (listEnvelope [Jsonish.obj []] (some 1)) "products")
      "cursor: `undefined`" :=
  listEnvelope_markdown_undefined_cursor.1 [Jsonish.obj []] (some 1) "products"
    (by decide) (by decide)
